import Mathlib

/-!
# The Whisper JNI bridge and the CoreML stubs

A shallow embedding of `app/src/main/cpp/whisper-jni.cpp` and
`app/src/main/cpp/whisper-coreml-stubs.cpp`.

* The file-level variable `g_whisper_context` becomes a field of an explicit
  `World`, threaded through every JNI entry point.
* The whisper engine (`whisper.h`) is an external library: it is a parameter,
  a record `Engine σ` of functions over an engine state `σ` of its own.
* Every call that leaves the bridge (to the JNI environment or to the engine)
  is appended, in program order, to `World.trace`.
* Pointers are natural numbers, `0` being `nullptr`; C `int`/`jint` values are
  integers; a `const char*` is the string before its terminator; a `jfloat` is
  its 32-bit pattern (the bridge never computes with samples).
* The JNI calls are taken to succeed (`GetStringUTFChars`,
  `GetFloatArrayElements` and `NewStringUTF` return what was asked for), and the
  two segment getters of the engine only read the engine state.
* `__android_log_print` (the `LOGI`/`LOGE` lines) touches neither the handle, the
  engine nor a JNI resource and is left out of the trace.
-/

namespace Medicaid

/-- A native pointer; `0` is `nullptr`. -/
abbrev Ptr := Nat

/-- The null pointer. -/
abbrev nullptr : Ptr := 0

/-- A `jfloat`, by its bit pattern. -/
abbrev jfloat := Nat

/-- The `whisper_context_params` of `whisper.h`: the field the bridge writes, and
the remaining fields, which it neither reads nor writes. -/
structure whisper_context_params where
  use_gpu : Bool
  other : Nat
  deriving DecidableEq, Repr

/-- The `whisper_sampling_strategy` enumeration of `whisper.h`. -/
inductive whisper_sampling_strategy where
  | WHISPER_SAMPLING_GREEDY
  | WHISPER_SAMPLING_BEAM_SEARCH
  deriving DecidableEq, Repr

/-- The `whisper_full_params` of `whisper.h`: the fields the bridge writes, and the
remaining fields, which it neither reads nor writes. -/
structure whisper_full_params where
  strategy : whisper_sampling_strategy
  print_realtime : Bool
  print_progress : Bool
  print_timestamps : Bool
  print_special : Bool
  translate : Bool
  language : String
  n_threads : Int
  offset_ms : Int
  duration_ms : Int
  other : Nat
  deriving DecidableEq, Repr

/-- The functions of `whisper.h` that the bridge calls, over an engine state `σ`. -/
structure Engine (σ : Type) where
  whisper_context_default_params : whisper_context_params
  whisper_init_from_file_with_params : σ → String → whisper_context_params → Ptr × σ
  whisper_full_default_params : whisper_sampling_strategy → whisper_full_params
  whisper_full : σ → Ptr → whisper_full_params → List jfloat → Int → Int × σ
  whisper_full_n_segments : σ → Ptr → Int
  whisper_full_get_segment_text : σ → Ptr → Int → String
  whisper_free : σ → Ptr → σ

/-- One call that leaves the bridge, with its arguments (and, for the engine
calls that return one, its result). -/
inductive Event where
  | GetStringUTFChars (model_path : String)
  | ReleaseStringUTFChars (model_path : String)
  | whisper_init_from_file_with_params (model_path_c : String)
      (cparams : whisper_context_params) (result : Ptr)
  | GetArrayLength (audio_data : List jfloat)
  | GetFloatArrayElements (audio_data : List jfloat)
  | ReleaseFloatArrayElements (audio_data : List jfloat) (mode : Int)
  | whisper_full (ctx : Ptr) (wparams : whisper_full_params)
      (audio_buffer : List jfloat) (audio_length : Int) (result : Int)
  | whisper_full_n_segments (ctx : Ptr) (result : Int)
  | whisper_full_get_segment_text (ctx : Ptr) (i : Int)
  | whisper_free (ctx : Ptr)
  | NewStringUTF (bytes : String)
  deriving DecidableEq, Repr

/-- The state the bridge runs in: its one global, the engine, and the calls made
so far. -/
structure World (σ : Type) where
  g_whisper_context : Ptr
  engine : σ
  trace : List Event

namespace Java_com_example_medicaid_data_WhisperNative

variable {σ : Type}

/-- The `cparams` of `initializeWhisper`: the engine defaults with `use_gpu`
cleared. -/
def cparams (E : Engine σ) : whisper_context_params :=
  { E.whisper_context_default_params with use_gpu := false }

/-- `Java_com_example_medicaid_data_WhisperNative_initializeWhisper`. -/
def initializeWhisper (E : Engine σ) (w : World σ) (model_path : String) :
    Bool × World σ :=
  let model_path_c := model_path
  let r := E.whisper_init_from_file_with_params w.engine model_path_c (cparams E)
  let w1 : World σ :=
    { g_whisper_context := r.1
      engine := r.2
      trace := w.trace ++
        [Event.GetStringUTFChars model_path,
         Event.whisper_init_from_file_with_params model_path_c (cparams E) r.1,
         Event.ReleaseStringUTFChars model_path] }
  if w1.g_whisper_context = nullptr then (false, w1) else (true, w1)

/-- The `wparams` of `transcribeAudio`: the engine defaults for greedy sampling
with the nine assignments of the source. -/
def wparams (E : Engine σ) : whisper_full_params :=
  { E.whisper_full_default_params whisper_sampling_strategy.WHISPER_SAMPLING_GREEDY with
    print_realtime := false
    print_progress := false
    print_timestamps := false
    print_special := false
    translate := false
    language := "en"
    n_threads := 4
    offset_ms := 0
    duration_ms := 0 }

/-- The loop `for (int i = 0; i < n_segments; ++i)` of `transcribeAudio`: the body
runs for `i = 0, 1, …, n_segments - 1` (not at all when `n_segments ≤ 0`); each
round queries the text of segment `i` and appends it to `transcription`. The
pair is the string and the calls made. -/
def segmentLoop (E : Engine σ) (s : σ) (ctx : Ptr) (n_segments : Int) :
    String × List Event :=
  (List.range n_segments.toNat).foldl
    (fun (acc : String × List Event) (i : Nat) =>
      let text := E.whisper_full_get_segment_text s ctx (i : Int)
      (acc.1 ++ text, acc.2 ++ [Event.whisper_full_get_segment_text ctx (i : Int)]))
    ("", [])

/-- `Java_com_example_medicaid_data_WhisperNative_transcribeAudio`. -/
def transcribeAudio (E : Engine σ) (w : World σ) (audio_data : List jfloat)
    (_sample_rate : Int) : String × World σ :=
  if w.g_whisper_context = nullptr then
    ("", { w with trace := w.trace ++ [Event.NewStringUTF ""] })
  else
    let audio_length : Int := (audio_data.length : Int)
    let audio_buffer := audio_data
    let r := E.whisper_full w.engine w.g_whisper_context (wparams E) audio_buffer audio_length
    let result := r.1
    let tr := w.trace ++
      [Event.GetArrayLength audio_data,
       Event.GetFloatArrayElements audio_data,
       Event.whisper_full w.g_whisper_context (wparams E) audio_buffer audio_length result,
       Event.ReleaseFloatArrayElements audio_data 0]
    if result ≠ 0 then
      ("", { w with engine := r.2, trace := tr ++ [Event.NewStringUTF ""] })
    else
      let n_segments := E.whisper_full_n_segments r.2 w.g_whisper_context
      let loop := segmentLoop E r.2 w.g_whisper_context n_segments
      let transcription := loop.1
      (transcription,
        { w with
          engine := r.2
          trace := tr ++ [Event.whisper_full_n_segments w.g_whisper_context n_segments]
            ++ loop.2 ++ [Event.NewStringUTF transcription] })

/-- `Java_com_example_medicaid_data_WhisperNative_cleanup`. -/
def cleanup (E : Engine σ) (w : World σ) : World σ :=
  if w.g_whisper_context ≠ nullptr then
    { g_whisper_context := nullptr
      engine := E.whisper_free w.engine w.g_whisper_context
      trace := w.trace ++ [Event.whisper_free w.g_whisper_context] }
  else w

/-- `Java_com_example_medicaid_data_WhisperNative_isInitialized`. -/
def isInitialized (w : World σ) : Bool :=
  if w.g_whisper_context ≠ nullptr then true else false

end Java_com_example_medicaid_data_WhisperNative

/-! ## The CoreML stubs -/

/-- Native memory: the word stored at each address. -/
abbrev Memory := Ptr → Nat

/-- The `len` words of the buffer that starts at `p`. -/
def bufferContents (m : Memory) (p : Ptr) (len : Nat) : List Nat :=
  (List.range len).map (fun i => m (p + i))

/-- The stub `whisper_coreml_init`: the returned pointer and the memory after. -/
def whisper_coreml_init (m : Memory) (_ctx : Ptr) : Ptr × Memory :=
  (nullptr, m)

/-- The stub `whisper_coreml_free`: the memory after. -/
def whisper_coreml_free (m : Memory) (_ctx : Ptr) : Memory :=
  m

/-- The stub `whisper_coreml_encode`: the returned status and the memory after. -/
def whisper_coreml_encode (m : Memory) (_ctx : Ptr) (_mel : Ptr) (_n_mel : Int)
    (_n_ctx : Int) (_out : Ptr) : Int × Memory :=
  (1, m)

/-! ## Sequences of bridge calls -/

/-- One call of a bridge entry point, with its arguments. -/
inductive Op where
  | initializeWhisper (model_path : String)
  | transcribeAudio (audio_data : List jfloat) (sample_rate : Int)
  | cleanup
  | isInitialized
  deriving DecidableEq, Repr

open Java_com_example_medicaid_data_WhisperNative in
/-- The world after one call. -/
def step {σ : Type} (E : Engine σ) (w : World σ) : Op → World σ
  | Op.initializeWhisper model_path => (initializeWhisper E w model_path).2
  | Op.transcribeAudio audio_data sample_rate => (transcribeAudio E w audio_data sample_rate).2
  | Op.cleanup => cleanup E w
  | Op.isInitialized => w

/-- The world after a sequence of calls, made one after the other. -/
def run {σ : Type} (E : Engine σ) (w : World σ) (ops : List Op) : World σ :=
  ops.foldl (step E) w

/-- The bridge as the library is loaded: `g_whisper_context = nullptr`, nothing
called yet. -/
def World.initial {σ : Type} (s : σ) : World σ :=
  { g_whisper_context := nullptr, engine := s, trace := [] }

/-! ## Reading a trace -/

/-- The handle an event passes to `whisper_free`. -/
def Event.freedPtr : Event → Option Ptr
  | Event.whisper_free ctx => some ctx
  | _ => none

/-- The handle an event passes to `whisper_full`, `whisper_full_n_segments` or
`whisper_full_get_segment_text`. -/
def Event.usedPtr : Event → Option Ptr
  | Event.whisper_full ctx _ _ _ _ => some ctx
  | Event.whisper_full_n_segments ctx _ => some ctx
  | Event.whisper_full_get_segment_text ctx _ => some ctx
  | _ => none

/-- The non-null handle an event received from
`whisper_init_from_file_with_params`. -/
def Event.constructedPtr : Event → Option Ptr
  | Event.whisper_init_from_file_with_params _ _ result =>
      if result = nullptr then none else some result
  | _ => none

/-- The handles passed to `whisper_free`, in order. -/
def freed (tr : List Event) : List Ptr := tr.filterMap Event.freedPtr

/-- The non-null handles the engine constructed, in order. -/
def constructed (tr : List Event) : List Ptr := tr.filterMap Event.constructedPtr

/-- Whether an event acquires the native view of an audio array. -/
def Event.isAcquire : Event → Bool
  | Event.GetFloatArrayElements _ => true
  | _ => false

/-- Whether an event releases the native view of an audio array. -/
def Event.isRelease : Event → Bool
  | Event.ReleaseFloatArrayElements _ _ => true
  | _ => false

/-- Whether an event is a call into the whisper engine. -/
def Event.isEngineCall : Event → Bool
  | Event.whisper_init_from_file_with_params _ _ _ => true
  | Event.whisper_full _ _ _ _ _ => true
  | Event.whisper_full_n_segments _ _ => true
  | Event.whisper_full_get_segment_text _ _ => true
  | Event.whisper_free _ => true
  | _ => false

/-- Whether an event queries the segments of a handle. -/
def Event.isSegmentQuery : Event → Bool
  | Event.whisper_full_n_segments _ _ => true
  | Event.whisper_full_get_segment_text _ _ => true
  | _ => false

/-- Every successful construction returned a handle never returned before. -/
def FreshHandles (tr : List Event) : Prop := (constructed tr).Nodup

instance (tr : List Event) : Decidable (FreshHandles tr) := by
  unfold FreshHandles; infer_instance

/-- No handle is passed to `whisper_free` twice. -/
def NoDoubleFree (tr : List Event) : Prop := (freed tr).Nodup

/-- No handle is passed to `whisper_full`, `whisper_full_n_segments` or
`whisper_full_get_segment_text` after it was passed to `whisper_free`. -/
def NoUseAfterFree (tr : List Event) : Prop :=
  ∀ (before after : List Event) (e : Event) (h : Ptr),
    tr = before ++ e :: after → e.usedPtr = some h → h ∉ freed before

/-! ## A concrete engine, for the instances -/

/-- The state of `demoEngine`: the next handle to hand out and the segments of
the last run. -/
structure DemoState where
  next : Ptr
  segments : List String
  deriving DecidableEq, Repr

/-- An engine that loads the one model `"model.bin"`, handing out the handles
`1, 2, 3, …`; its `whisper_full` fails with status `-1` on empty audio and
otherwise leaves the two segments `" hello"` and `" world"`. -/
def demoEngine : Engine DemoState where
  whisper_context_default_params := { use_gpu := true, other := 0 }
  whisper_init_from_file_with_params s model_path _ :=
    if model_path = "model.bin" then (s.next, { s with next := s.next + 1 })
    else (nullptr, s)
  whisper_full_default_params strategy :=
    { strategy := strategy
      print_realtime := true
      print_progress := true
      print_timestamps := true
      print_special := true
      translate := true
      language := "auto"
      n_threads := 1
      offset_ms := 7
      duration_ms := 9
      other := 0 }
  whisper_full s _ _ audio_buffer _ :=
    if audio_buffer = [] then (-1, s)
    else (0, { s with segments := [" hello", " world"] })
  whisper_full_n_segments s _ := (s.segments.length : Int)
  whisper_full_get_segment_text s _ i := s.segments.getD i.toNat ""
  whisper_free s _ := s

/-- The initial world over `demoEngine`. -/
def demoWorld : World DemoState := World.initial { next := 1, segments := [] }

/-- The number of `GetFloatArrayElements` calls in a trace. -/
def acquisitions (tr : List Event) : Nat := tr.countP Event.isAcquire

/-- The number of `ReleaseFloatArrayElements` calls in a trace. -/
def releases (tr : List Event) : Nat := tr.countP Event.isRelease

/-- The number of calls into the whisper engine in a trace. -/
def engineCalls (tr : List Event) : Nat := tr.countP Event.isEngineCall

/-- The number of segment queries in a trace. -/
def segmentQueries (tr : List Event) : Nat := tr.countP Event.isSegmentQuery

/-- The handle discipline of a world: the stored handle is null or a handle the
engine constructed and that was not freed since; every freed handle had been
constructed; no handle was freed twice; no handle was used after it was
freed. -/
def HandleInv {σ : Type} (w : World σ) : Prop :=
  (w.g_whisper_context = nullptr ∨
    (w.g_whisper_context ∈ constructed w.trace ∧ w.g_whisper_context ∉ freed w.trace)) ∧
  (∀ h ∈ freed w.trace, h ∈ constructed w.trace) ∧
  NoDoubleFree w.trace ∧
  NoUseAfterFree w.trace

/-! ## The segment loop -/

open Java_com_example_medicaid_data_WhisperNative

variable {σ : Type}

theorem foldl_append_eq_join (l : List String) (acc : String) :
    l.foldl (fun r s => r ++ s) acc = acc ++ String.join l := by
  induction l generalizing acc with
  | nil => simp [String.join]
  | cons a l ih =>
    simp only [List.foldl_cons, String.join]
    rw [ih, ih ("" ++ a)]
    simp [String.append_assoc]

theorem join_cons (a : String) (l : List String) :
    String.join (a :: l) = a ++ String.join l := by
  show List.foldl (fun r s => r ++ s) ("" ++ a) l = a ++ String.join l
  rw [foldl_append_eq_join]
  simp

theorem segmentLoop_fold (E : Engine σ) (s : σ) (ctx : Ptr) (l : List Nat)
    (acc : String × List Event) :
    l.foldl
      (fun (acc : String × List Event) (i : Nat) =>
        (acc.1 ++ E.whisper_full_get_segment_text s ctx (i : Int),
          acc.2 ++ [Event.whisper_full_get_segment_text ctx (i : Int)]))
      acc
    = (acc.1 ++ String.join (l.map (fun (i : Nat) => E.whisper_full_get_segment_text s ctx (i : Int))),
       acc.2 ++ l.map (fun (i : Nat) => Event.whisper_full_get_segment_text ctx (i : Int))) := by
  induction l generalizing acc with
  | nil => simp [String.join]
  | cons a l ih =>
    simp only [List.foldl_cons, List.map_cons]
    rw [ih, join_cons]
    simp [String.append_assoc]

theorem segmentLoop_eq (E : Engine σ) (s : σ) (ctx : Ptr) (n_segments : Int) :
    segmentLoop E s ctx n_segments =
      (String.join ((List.range n_segments.toNat).map
          (fun (i : Nat) => E.whisper_full_get_segment_text s ctx (i : Int))),
       (List.range n_segments.toNat).map
          (fun (i : Nat) => Event.whisper_full_get_segment_text ctx (i : Int))) := by
  unfold segmentLoop
  rw [segmentLoop_fold]
  simp


/-! ## initializeWhisper and isInitialized -/

/-- C1: for every bridge state and every model path, `initializeWhisper` returns
true and a following `isInitialized` returns true when the engine's
`whisper_init_from_file_with_params` yields a non-null handle for that path, and
both return false when the engine yields the null handle. -/
theorem initializeWhisper_reports_engine_handle (E : Engine σ) (w : World σ)
    (model_path : String) :
    ((E.whisper_init_from_file_with_params w.engine model_path (cparams E)).1 ≠ nullptr →
      (initializeWhisper E w model_path).1 = true ∧
      isInitialized (initializeWhisper E w model_path).2 = true) ∧
    ((E.whisper_init_from_file_with_params w.engine model_path (cparams E)).1 = nullptr →
      (initializeWhisper E w model_path).1 = false ∧
      isInitialized (initializeWhisper E w model_path).2 = false) := by
  constructor
  · intro h
    simp [initializeWhisper, isInitialized, h]
  · intro h
    simp [initializeWhisper, isInitialized, h]

/-- C1 at `demoEngine`: the model `"model.bin"` loads, `"missing.bin"` does not. -/
theorem initializeWhisper_reports_engine_handle_witness :
    ((initializeWhisper demoEngine demoWorld "model.bin").1 = true ∧
      isInitialized (initializeWhisper demoEngine demoWorld "model.bin").2 = true) ∧
    ((initializeWhisper demoEngine demoWorld "missing.bin").1 = false ∧
      isInitialized (initializeWhisper demoEngine demoWorld "missing.bin").2 = false) :=
  ⟨(initializeWhisper_reports_engine_handle demoEngine demoWorld "model.bin").1 (by decide),
   (initializeWhisper_reports_engine_handle demoEngine demoWorld "missing.bin").2 (by decide)⟩

/-! ## transcribeAudio -/

/-- C2: `transcribeAudio` called while the handle is null returns the empty string,
makes the one call `NewStringUTF("")` and no other (so no
`GetFloatArrayElements`, no `ReleaseFloatArrayElements` and no engine call),
leaves the engine as it was and leaves the handle null. -/
theorem transcribeAudio_uninitialized (E : Engine σ) (w : World σ)
    (audio_data : List jfloat) (sample_rate : Int)
    (h : isInitialized w = false) :
    (transcribeAudio E w audio_data sample_rate).1 = "" ∧
    (transcribeAudio E w audio_data sample_rate).2.trace
      = w.trace ++ [Event.NewStringUTF ""] ∧
    acquisitions (transcribeAudio E w audio_data sample_rate).2.trace
      = acquisitions w.trace ∧
    releases (transcribeAudio E w audio_data sample_rate).2.trace = releases w.trace ∧
    engineCalls (transcribeAudio E w audio_data sample_rate).2.trace
      = engineCalls w.trace ∧
    (transcribeAudio E w audio_data sample_rate).2.engine = w.engine ∧
    (transcribeAudio E w audio_data sample_rate).2.g_whisper_context = nullptr := by
  have h0 : w.g_whisper_context = 0 := by
    simpa [isInitialized] using h
  simp [transcribeAudio, h0, acquisitions, releases, engineCalls, Event.isAcquire,
    Event.isRelease, Event.isEngineCall]

/-- C2 on the bridge as loaded, over `demoEngine`. -/
theorem transcribeAudio_uninitialized_witness :
    (transcribeAudio demoEngine demoWorld [1, 2, 3] 16000).1 = "" ∧
    (transcribeAudio demoEngine demoWorld [1, 2, 3] 16000).2.trace
      = demoWorld.trace ++ [Event.NewStringUTF ""] ∧
    acquisitions (transcribeAudio demoEngine demoWorld [1, 2, 3] 16000).2.trace
      = acquisitions demoWorld.trace ∧
    releases (transcribeAudio demoEngine demoWorld [1, 2, 3] 16000).2.trace
      = releases demoWorld.trace ∧
    engineCalls (transcribeAudio demoEngine demoWorld [1, 2, 3] 16000).2.trace
      = engineCalls demoWorld.trace ∧
    (transcribeAudio demoEngine demoWorld [1, 2, 3] 16000).2.engine = demoWorld.engine ∧
    (transcribeAudio demoEngine demoWorld [1, 2, 3] 16000).2.g_whisper_context = nullptr :=
  transcribeAudio_uninitialized demoEngine demoWorld [1, 2, 3] 16000 (by decide)

/-- A list is its entries read off by index, in order. -/
theorem string_join_range_map (ts : List String) (t : Nat → String)
    (ht : ∀ (i : Nat) (hi : i < ts.length), t i = ts[i]) :
    (List.range ts.length).map t = ts := by
  apply List.ext_getElem
  · simp
  · intro i h1 h2
    simp [ht i h2]

/-- C3: in the Ready state, when `whisper_full` returns 0 and the engine then
reports `ts.length` segments whose texts are `ts[0], ts[1], …`, the string
returned is `ts[0] ++ ts[1] ++ …` (`String.join ts`): every segment, in
increasing index order, nothing between them, nothing dropped (the empty
string when there is no segment); the segments are queried in that order. -/
theorem transcribeAudio_concatenates_segments (E : Engine σ) (w : World σ)
    (audio_data : List jfloat) (sample_rate : Int) (ts : List String)
    (hready : isInitialized w = true)
    (hstatus : (E.whisper_full w.engine w.g_whisper_context (wparams E) audio_data
      (audio_data.length : Int)).1 = 0)
    (hn : E.whisper_full_n_segments
      (E.whisper_full w.engine w.g_whisper_context (wparams E) audio_data
        (audio_data.length : Int)).2 w.g_whisper_context = (ts.length : Int))
    (ht : ∀ (i : Nat) (hi : i < ts.length),
      E.whisper_full_get_segment_text
        (E.whisper_full w.engine w.g_whisper_context (wparams E) audio_data
          (audio_data.length : Int)).2 w.g_whisper_context (i : Int) = ts[i]) :
    (transcribeAudio E w audio_data sample_rate).1 = String.join ts ∧
    (ts = [] → (transcribeAudio E w audio_data sample_rate).1 = "") ∧
    (transcribeAudio E w audio_data sample_rate).2.trace
      = w.trace ++
        [Event.GetArrayLength audio_data,
         Event.GetFloatArrayElements audio_data,
         Event.whisper_full w.g_whisper_context (wparams E) audio_data
           (audio_data.length : Int) 0,
         Event.ReleaseFloatArrayElements audio_data 0,
         Event.whisper_full_n_segments w.g_whisper_context (ts.length : Int)]
        ++ (List.range ts.length).map
            (fun (i : Nat) => Event.whisper_full_get_segment_text w.g_whisper_context (i : Int))
        ++ [Event.NewStringUTF (String.join ts)] := by
  have h0 : w.g_whisper_context ≠ 0 := by
    simpa [isInitialized] using hready
  have hres : (transcribeAudio E w audio_data sample_rate).1 = String.join ts := by
    simp only [transcribeAudio, h0, hstatus, hn, segmentLoop_eq, if_false, ne_eq,
      not_true_eq_false, Int.toNat_ofNat]
    rw [string_join_range_map ts _ ht]
  refine ⟨hres, ?_, ?_⟩
  · intro hts
    rw [hres, hts]
    rfl
  · simp only [transcribeAudio, h0, hstatus, hn, segmentLoop_eq, if_false, ne_eq,
      not_true_eq_false, Int.toNat_ofNat]
    rw [string_join_range_map ts _ ht]
    simp

/-- C3 over `demoEngine`: the two segments `" hello"` and `" world"` come back as
`" hello world"`. -/
theorem transcribeAudio_concatenates_segments_witness :
    (transcribeAudio demoEngine (initializeWhisper demoEngine demoWorld "model.bin").2
      [1, 2, 3] 16000).1 = " hello world" :=
  (transcribeAudio_concatenates_segments demoEngine
    (initializeWhisper demoEngine demoWorld "model.bin").2 [1, 2, 3] 16000
    [" hello", " world"] (by decide) (by decide) (by decide) (by decide)).1


/-- C4: in the Ready state, when `whisper_full` returns a non-zero status, the
string returned is empty; the calls made are exactly the array acquisition,
`whisper_full`, the release and `NewStringUTF("")`, so no segment count or
text is queried; the result and the world after are the same whatever the
engine's two segment functions are; the handle is unchanged, hence valid. -/
theorem transcribeAudio_engine_failure (E : Engine σ) (w : World σ)
    (audio_data : List jfloat) (sample_rate : Int)
    (hready : isInitialized w = true)
    (hstatus : (E.whisper_full w.engine w.g_whisper_context (wparams E) audio_data
      (audio_data.length : Int)).1 ≠ 0) :
    (transcribeAudio E w audio_data sample_rate).1 = "" ∧
    (transcribeAudio E w audio_data sample_rate).2.trace
      = w.trace ++
        [Event.GetArrayLength audio_data,
         Event.GetFloatArrayElements audio_data,
         Event.whisper_full w.g_whisper_context (wparams E) audio_data
           (audio_data.length : Int)
           (E.whisper_full w.engine w.g_whisper_context (wparams E) audio_data
             (audio_data.length : Int)).1,
         Event.ReleaseFloatArrayElements audio_data 0,
         Event.NewStringUTF ""] ∧
    segmentQueries (transcribeAudio E w audio_data sample_rate).2.trace
      = segmentQueries w.trace ∧
    (∀ (n : σ → Ptr → Int) (t : σ → Ptr → Int → String),
      transcribeAudio
        { E with whisper_full_n_segments := n, whisper_full_get_segment_text := t }
        w audio_data sample_rate
      = transcribeAudio E w audio_data sample_rate) ∧
    (transcribeAudio E w audio_data sample_rate).2.g_whisper_context
      = w.g_whisper_context ∧
    isInitialized (transcribeAudio E w audio_data sample_rate).2 = true := by
  have h0 : w.g_whisper_context ≠ 0 := by
    simpa [isInitialized] using hready
  refine ⟨?_, ?_, ?_, ?_, ?_, ?_⟩
  · simp [transcribeAudio, h0, hstatus]
  · simp [transcribeAudio, h0, hstatus]
  · simp [transcribeAudio, h0, hstatus, segmentQueries, Event.isSegmentQuery]
  · intro n t
    have hw : wparams
        { E with whisper_full_n_segments := n, whisper_full_get_segment_text := t }
        = wparams E := rfl
    simp [transcribeAudio, h0, hstatus, hw]
  · simp [transcribeAudio, h0, hstatus]
  · simp [transcribeAudio, h0, hstatus, isInitialized]

/-- C4 over `demoEngine`, whose `whisper_full` fails on empty audio. -/
theorem transcribeAudio_engine_failure_witness :
    (transcribeAudio demoEngine (initializeWhisper demoEngine demoWorld "model.bin").2
      [] 16000).1 = "" ∧
    isInitialized (transcribeAudio demoEngine
      (initializeWhisper demoEngine demoWorld "model.bin").2 [] 16000).2 = true :=
  ⟨(transcribeAudio_engine_failure demoEngine
      (initializeWhisper demoEngine demoWorld "model.bin").2 [] 16000
      (by decide) (by decide)).1,
   (transcribeAudio_engine_failure demoEngine
      (initializeWhisper demoEngine demoWorld "model.bin").2 [] 16000
      (by decide) (by decide)).2.2.2.2.2⟩

/-- C5 as stated fails: a `transcribeAudio` call made on the bridge as loaded
(handle null) returns with no `ReleaseFloatArrayElements` call at all, not
one. -/
theorem transcribeAudio_uninitialized_releases_nothing :
    isInitialized demoWorld = false ∧
    releases (transcribeAudio demoEngine demoWorld [1, 2, 3] 16000).2.trace = 0 ∧
    releases (transcribeAudio demoEngine demoWorld [1, 2, 3] 16000).2.trace
      ≠ releases demoWorld.trace + 1 := by
  decide

/-- C5, amended: a `transcribeAudio` call acquires the native view of the audio
array exactly once and releases it exactly once when the handle is valid, the
release (mode 0, of the same array) coming after the acquisition and after
`whisper_full`, whatever status `whisper_full` returns; it acquires and
releases nothing when the handle is null. -/
theorem transcribeAudio_releases_what_it_acquires (E : Engine σ) (w : World σ)
    (audio_data : List jfloat) (sample_rate : Int) :
    (isInitialized w = true →
      acquisitions (transcribeAudio E w audio_data sample_rate).2.trace
        = acquisitions w.trace + 1 ∧
      releases (transcribeAudio E w audio_data sample_rate).2.trace
        = releases w.trace + 1 ∧
      ∃ rest : List Event,
        (transcribeAudio E w audio_data sample_rate).2.trace
          = w.trace ++
            [Event.GetArrayLength audio_data,
             Event.GetFloatArrayElements audio_data,
             Event.whisper_full w.g_whisper_context (wparams E) audio_data
               (audio_data.length : Int)
               (E.whisper_full w.engine w.g_whisper_context (wparams E) audio_data
                 (audio_data.length : Int)).1,
             Event.ReleaseFloatArrayElements audio_data 0] ++ rest ∧
        acquisitions rest = 0 ∧ releases rest = 0) ∧
    (isInitialized w = false →
      acquisitions (transcribeAudio E w audio_data sample_rate).2.trace
        = acquisitions w.trace ∧
      releases (transcribeAudio E w audio_data sample_rate).2.trace
        = releases w.trace) := by
  constructor
  · intro hready
    have h0 : w.g_whisper_context ≠ 0 := by
      simpa [isInitialized] using hready
    by_cases hstatus : (E.whisper_full w.engine w.g_whisper_context (wparams E) audio_data
        (audio_data.length : Int)).1 = 0
    · refine ⟨?_, ?_, ?_⟩
      · simp [transcribeAudio, h0, hstatus, segmentLoop_eq, acquisitions, Event.isAcquire,
          List.countP_eq_zero]
      · simp [transcribeAudio, h0, hstatus, segmentLoop_eq, releases, Event.isRelease,
          List.countP_eq_zero]
      · refine ⟨[Event.whisper_full_n_segments w.g_whisper_context
            (E.whisper_full_n_segments
              (E.whisper_full w.engine w.g_whisper_context (wparams E) audio_data
                (audio_data.length : Int)).2 w.g_whisper_context)]
          ++ (segmentLoop E
              (E.whisper_full w.engine w.g_whisper_context (wparams E) audio_data
                (audio_data.length : Int)).2 w.g_whisper_context
              (E.whisper_full_n_segments
                (E.whisper_full w.engine w.g_whisper_context (wparams E) audio_data
                  (audio_data.length : Int)).2 w.g_whisper_context)).2
          ++ [Event.NewStringUTF (transcribeAudio E w audio_data sample_rate).1], ?_, ?_, ?_⟩
        · simp [transcribeAudio, h0, hstatus]
        · simp [segmentLoop_eq, acquisitions, Event.isAcquire, List.countP_eq_zero]
        · simp [segmentLoop_eq, releases, Event.isRelease, List.countP_eq_zero]
    · refine ⟨?_, ?_, ?_⟩
      · simp [transcribeAudio, h0, hstatus, acquisitions, Event.isAcquire]
      · simp [transcribeAudio, h0, hstatus, releases, Event.isRelease]
      · refine ⟨[Event.NewStringUTF ""], ?_, ?_, ?_⟩
        · simp [transcribeAudio, h0, hstatus]
        · simp [acquisitions, Event.isAcquire]
        · simp [releases, Event.isRelease]
  · intro hnot
    have h0 : w.g_whisper_context = 0 := by
      simpa [isInitialized] using hnot
    simp [transcribeAudio, h0, acquisitions, releases, Event.isAcquire, Event.isRelease]

/-- C5, amended, over `demoEngine`: one acquisition and one release in a Ready
call, none in a call on the bridge as loaded. -/
theorem transcribeAudio_releases_what_it_acquires_witness :
    (acquisitions (transcribeAudio demoEngine
        (initializeWhisper demoEngine demoWorld "model.bin").2 [1, 2, 3] 16000).2.trace
      = acquisitions (initializeWhisper demoEngine demoWorld "model.bin").2.trace + 1 ∧
     releases (transcribeAudio demoEngine
        (initializeWhisper demoEngine demoWorld "model.bin").2 [1, 2, 3] 16000).2.trace
      = releases (initializeWhisper demoEngine demoWorld "model.bin").2.trace + 1) ∧
    (acquisitions (transcribeAudio demoEngine demoWorld [1, 2, 3] 16000).2.trace
      = acquisitions demoWorld.trace ∧
     releases (transcribeAudio demoEngine demoWorld [1, 2, 3] 16000).2.trace
      = releases demoWorld.trace) :=
  ⟨⟨((transcribeAudio_releases_what_it_acquires demoEngine
        (initializeWhisper demoEngine demoWorld "model.bin").2 [1, 2, 3] 16000).1
        (by decide)).1,
    ((transcribeAudio_releases_what_it_acquires demoEngine
        (initializeWhisper demoEngine demoWorld "model.bin").2 [1, 2, 3] 16000).1
        (by decide)).2.1⟩,
   (transcribeAudio_releases_what_it_acquires demoEngine demoWorld [1, 2, 3] 16000).2
      (by decide)⟩

/-! ## cleanup -/

/-- C7: for every memory, handle, input buffer, `n_mel`, `n_ctx` and output buffer,
`whisper_coreml_encode` returns a non-zero status and leaves memory, so the
contents of the output buffer, unchanged; `whisper_coreml_init` returns the
null handle for every context argument; `whisper_coreml_free` changes no state
for every argument, null included. -/
theorem coreml_stubs_fail_closed (m : Memory) (ctx mel out : Ptr) (n_mel n_ctx : Int)
    (len : Nat) :
    (whisper_coreml_encode m ctx mel n_mel n_ctx out).1 ≠ 0 ∧
    (whisper_coreml_encode m ctx mel n_mel n_ctx out).2 = m ∧
    bufferContents (whisper_coreml_encode m ctx mel n_mel n_ctx out).2 out len
      = bufferContents m out len ∧
    (whisper_coreml_init m ctx).1 = nullptr ∧
    (whisper_coreml_init m ctx).2 = m ∧
    whisper_coreml_free m ctx = m ∧
    whisper_coreml_free m nullptr = m := by
  simp [whisper_coreml_encode, whisper_coreml_init, whisper_coreml_free]


/-! ## The handle across calls -/

/-- What `initializeWhisper` leaves behind: the handle is the engine's result, and
the three calls made are the string acquisition, the construction and the
string release. -/
theorem initializeWhisper_world (E : Engine σ) (w : World σ) (model_path : String) :
    (initializeWhisper E w model_path).2.g_whisper_context
      = (E.whisper_init_from_file_with_params w.engine model_path (cparams E)).1 ∧
    (initializeWhisper E w model_path).2.trace
      = w.trace ++
        [Event.GetStringUTFChars model_path,
         Event.whisper_init_from_file_with_params model_path (cparams E)
           (E.whisper_init_from_file_with_params w.engine model_path (cparams E)).1,
         Event.ReleaseStringUTFChars model_path] := by
  by_cases h : (E.whisper_init_from_file_with_params w.engine model_path (cparams E)).1 = 0
  · simp [initializeWhisper, h]
  · simp [initializeWhisper, h]

/-- The handle after `transcribeAudio` is the handle before. -/
theorem transcribeAudio_keeps_handle (E : Engine σ) (w : World σ)
    (audio_data : List jfloat) (sample_rate : Int) :
    (transcribeAudio E w audio_data sample_rate).2.g_whisper_context
      = w.g_whisper_context := by
  unfold transcribeAudio
  split
  · rfl
  · dsimp only
    split <;> rfl

/-- The calls `transcribeAudio` makes: none frees or constructs a handle, and each
one that uses a handle uses the stored one, which is then not null. -/
theorem transcribeAudio_events (E : Engine σ) (w : World σ)
    (audio_data : List jfloat) (sample_rate : Int) :
    ∃ new : List Event,
      (transcribeAudio E w audio_data sample_rate).2.trace = w.trace ++ new ∧
      ∀ e ∈ new, e.freedPtr = none ∧ e.constructedPtr = none ∧
        ∀ h : Ptr, e.usedPtr = some h → h = w.g_whisper_context ∧ h ≠ nullptr := by
  by_cases h0 : w.g_whisper_context = 0
  · refine ⟨[Event.NewStringUTF ""], ?_, ?_⟩
    · simp [transcribeAudio, h0]
    · intro e he
      simp only [List.mem_singleton] at he
      subst he
      simp [Event.freedPtr, Event.constructedPtr, Event.usedPtr]
  · by_cases hstatus : (E.whisper_full w.engine w.g_whisper_context (wparams E) audio_data
        (audio_data.length : Int)).1 = 0
    · refine ⟨[Event.GetArrayLength audio_data,
          Event.GetFloatArrayElements audio_data,
          Event.whisper_full w.g_whisper_context (wparams E) audio_data
            (audio_data.length : Int) 0,
          Event.ReleaseFloatArrayElements audio_data 0]
          ++ [Event.whisper_full_n_segments w.g_whisper_context
            (E.whisper_full_n_segments
              (E.whisper_full w.engine w.g_whisper_context (wparams E) audio_data
                (audio_data.length : Int)).2 w.g_whisper_context)]
          ++ (segmentLoop E
              (E.whisper_full w.engine w.g_whisper_context (wparams E) audio_data
                (audio_data.length : Int)).2 w.g_whisper_context
              (E.whisper_full_n_segments
                (E.whisper_full w.engine w.g_whisper_context (wparams E) audio_data
                  (audio_data.length : Int)).2 w.g_whisper_context)).2
          ++ [Event.NewStringUTF (transcribeAudio E w audio_data sample_rate).1], ?_, ?_⟩
      · simp [transcribeAudio, h0, hstatus]
      · intro e he
        simp only [segmentLoop_eq, List.mem_append, List.mem_cons, List.mem_map,
          List.mem_range, List.mem_singleton, List.not_mem_nil, or_false, or_assoc] at he
        rcases he with he | he | he | he | he | ⟨i, _, he⟩ | he
        all_goals
          subst he
          simp [Event.freedPtr, Event.constructedPtr, Event.usedPtr, h0]
    · refine ⟨[Event.GetArrayLength audio_data,
          Event.GetFloatArrayElements audio_data,
          Event.whisper_full w.g_whisper_context (wparams E) audio_data
            (audio_data.length : Int)
            (E.whisper_full w.engine w.g_whisper_context (wparams E) audio_data
              (audio_data.length : Int)).1,
          Event.ReleaseFloatArrayElements audio_data 0]
          ++ [Event.NewStringUTF ""], ?_, ?_⟩
      · simp [transcribeAudio, h0, hstatus]
      · intro e he
        simp only [List.mem_append, List.mem_cons, List.mem_singleton, List.not_mem_nil,
          or_false, or_assoc] at he
        rcases he with he | he | he | he | he
        all_goals
          subst he
          simp [Event.freedPtr, Event.constructedPtr, Event.usedPtr, h0]

/-- C8 as stated fails: over `demoEngine`, after `"model.bin"` has loaded (handle
valid), an `initializeWhisper` call for a model that does not load leaves the
handle null. -/
theorem initializeWhisper_while_ready_can_clear_handle :
    (initializeWhisper demoEngine demoWorld "model.bin").2.g_whisper_context ≠ nullptr ∧
    (initializeWhisper demoEngine
      (initializeWhisper demoEngine demoWorld "model.bin").2
      "missing.bin").2.g_whisper_context = nullptr := by
  decide

/-- C8, amended: over the four bridge operations, for every input and every
engine, (1) an operation that takes the handle from null to valid is an
`initializeWhisper`; (2) an operation that takes it from valid to null is
`cleanup`, or an `initializeWhisper` for which the engine returned the null
handle; (3) `transcribeAudio` and `isInitialized` leave the handle as it was,
`cleanup` leaves it null, and `initializeWhisper` leaves it equal to the
engine's result, so that a call made while Ready leaves it valid exactly when
the construction succeeds. -/
theorem handle_transitions (E : Engine σ) (w : World σ) (op : Op) :
    (w.g_whisper_context = nullptr → (step E w op).g_whisper_context ≠ nullptr →
      ∃ model_path, op = Op.initializeWhisper model_path) ∧
    (w.g_whisper_context ≠ nullptr → (step E w op).g_whisper_context = nullptr →
      op = Op.cleanup ∨
      ∃ model_path, op = Op.initializeWhisper model_path ∧
        (E.whisper_init_from_file_with_params w.engine model_path (cparams E)).1
          = nullptr) ∧
    (∀ audio_data sample_rate,
      (step E w (Op.transcribeAudio audio_data sample_rate)).g_whisper_context
        = w.g_whisper_context) ∧
    (step E w Op.isInitialized).g_whisper_context = w.g_whisper_context ∧
    (step E w Op.cleanup).g_whisper_context = nullptr ∧
    (∀ model_path,
      (step E w (Op.initializeWhisper model_path)).g_whisper_context
        = (E.whisper_init_from_file_with_params w.engine model_path (cparams E)).1) := by
  have hclean : (cleanup E w).g_whisper_context = 0 := by
    by_cases h0 : w.g_whisper_context = 0
    · simp [cleanup, h0]
    · simp [cleanup, h0]
  refine ⟨?_, ?_, ?_, rfl, hclean, ?_⟩
  · intro hnull hvalid
    cases op with
    | initializeWhisper model_path => exact ⟨model_path, rfl⟩
    | transcribeAudio audio_data sample_rate =>
      exact absurd ((transcribeAudio_keeps_handle E w audio_data sample_rate).trans hnull)
        hvalid
    | cleanup => exact absurd hclean hvalid
    | isInitialized => exact absurd hnull hvalid
  · intro hvalid hnull
    cases op with
    | initializeWhisper model_path =>
      exact Or.inr ⟨model_path, rfl,
        (initializeWhisper_world E w model_path).1.symm.trans hnull⟩
    | transcribeAudio audio_data sample_rate =>
      exact absurd ((transcribeAudio_keeps_handle E w audio_data sample_rate).symm.trans hnull)
        hvalid
    | cleanup => exact Or.inl rfl
    | isInitialized => exact absurd hnull hvalid
  · intro audio_data sample_rate
    exact transcribeAudio_keeps_handle E w audio_data sample_rate
  · intro model_path
    exact (initializeWhisper_world E w model_path).1

/-- C8, amended, over `demoEngine`: from the Ready world, the failing
`initializeWhisper "missing.bin"` clears the handle, and the amended
invariant names it. -/
theorem handle_transitions_witness :
    Op.initializeWhisper "missing.bin" = Op.cleanup ∨
    ∃ model_path, Op.initializeWhisper "missing.bin" = Op.initializeWhisper model_path ∧
      (demoEngine.whisper_init_from_file_with_params
        (initializeWhisper demoEngine demoWorld "model.bin").2.engine model_path
        (cparams demoEngine)).1 = nullptr :=
  (handle_transitions demoEngine (initializeWhisper demoEngine demoWorld "model.bin").2
    (Op.initializeWhisper "missing.bin")).2.1 (by decide) (by decide)


/-! ## Traces of whole runs -/

/-- The freed handles of a concatenation. -/
theorem freed_append (a b : List Event) : freed (a ++ b) = freed a ++ freed b := by
  simp [freed]

/-- The constructed handles of a concatenation. -/
theorem constructed_append (a b : List Event) :
    constructed (a ++ b) = constructed a ++ constructed b := by
  simp [constructed]

/-- Events that free nothing add nothing to the freed handles. -/
theorem freed_eq_nil (new : List Event) (h : ∀ e ∈ new, e.freedPtr = none) :
    freed new = [] := by
  induction new with
  | nil => rfl
  | cons a l ih =>
    have ha := h a (List.mem_cons_self a l)
    have hl := ih (fun e he => h e (List.mem_cons_of_mem a he))
    simp only [freed, List.filterMap_cons, ha]
    exact hl

/-- Events that construct nothing add nothing to the constructed handles. -/
theorem constructed_eq_nil (new : List Event) (h : ∀ e ∈ new, e.constructedPtr = none) :
    constructed new = [] := by
  induction new with
  | nil => rfl
  | cons a l ih =>
    have ha := h a (List.mem_cons_self a l)
    have hl := ih (fun e he => h e (List.mem_cons_of_mem a he))
    simp only [constructed, List.filterMap_cons, ha]
    exact hl

/-- Freshness of a trace is freshness of each of its prefixes. -/
theorem FreshHandles.of_append {tr new : List Event} (h : FreshHandles (tr ++ new)) :
    FreshHandles tr := by
  unfold FreshHandles at h ⊢
  rw [constructed_append] at h
  exact h.of_append_left

/-- Appending events that use no handle keeps a trace free of use after free. -/
theorem NoUseAfterFree.append_of_no_use {tr new : List Event} (htr : NoUseAfterFree tr)
    (hnew : ∀ e ∈ new, e.usedPtr = none) : NoUseAfterFree (tr ++ new) := by
  intro before after e h heq huse
  rcases List.append_eq_append_iff.mp heq with ⟨a1, _, ha2⟩ | ⟨c1, hc1, hc2⟩
  · have he : e ∈ new := by rw [ha2]; simp
    rw [hnew e he] at huse
    exact absurd huse (by simp)
  · cases c1 with
    | nil =>
      have he : e ∈ new := by
        have hn : new = e :: after := by simpa using hc2.symm
        rw [hn]
        exact List.mem_cons_self e after
      rw [hnew e he] at huse
      exact absurd huse (by simp)
    | cons c cs =>
      simp only [List.cons_append, List.cons.injEq] at hc2
      obtain ⟨hce, _⟩ := hc2
      subst hce
      exact htr before cs e h hc1 huse

/-- Appending events that free nothing and use only handles not yet freed keeps a
trace free of use after free. -/
theorem NoUseAfterFree.append_of_live {tr new : List Event} (htr : NoUseAfterFree tr)
    (hfree : ∀ e ∈ new, e.freedPtr = none)
    (huse : ∀ e ∈ new, ∀ h : Ptr, e.usedPtr = some h → h ∉ freed tr) :
    NoUseAfterFree (tr ++ new) := by
  intro before after e h heq hused
  rcases List.append_eq_append_iff.mp heq with ⟨a1, ha, ha2⟩ | ⟨c1, hc1, hc2⟩
  · have he : e ∈ new := by rw [ha2]; simp
    have hsub : ∀ x ∈ a1, x.freedPtr = none := by
      intro x hx
      apply hfree
      rw [ha2]
      simp [hx]
    rw [ha, freed_append, freed_eq_nil a1 hsub, List.append_nil]
    exact huse e he h hused
  · cases c1 with
    | nil =>
      have he : e ∈ new := by
        have hn : new = e :: after := by simpa using hc2.symm
        rw [hn]
        exact List.mem_cons_self e after
      have hb : before = tr := by simpa using hc1.symm
      rw [hb]
      exact huse e he h hused
    | cons c cs =>
      simp only [List.cons_append, List.cons.injEq] at hc2
      obtain ⟨hce, _⟩ := hc2
      subst hce
      exact htr before cs e h hc1 hused

/-- Every call extends the trace. -/
theorem step_trace_extends (E : Engine σ) (w : World σ) (op : Op) :
    ∃ new : List Event, (step E w op).trace = w.trace ++ new := by
  cases op with
  | initializeWhisper model_path => exact ⟨_, (initializeWhisper_world E w model_path).2⟩
  | transcribeAudio audio_data sample_rate =>
    obtain ⟨new, hnew, _⟩ := transcribeAudio_events E w audio_data sample_rate
    exact ⟨new, hnew⟩
  | cleanup =>
    by_cases h0 : w.g_whisper_context = 0
    · exact ⟨[], by simp [step, cleanup, h0]⟩
    · exact ⟨[Event.whisper_free w.g_whisper_context], by simp [step, cleanup, h0]⟩
  | isInitialized => exact ⟨[], by simp [step]⟩

/-- Every run extends the trace. -/
theorem run_trace_extends (E : Engine σ) (ops : List Op) (w : World σ) :
    ∃ new : List Event, (run E w ops).trace = w.trace ++ new := by
  induction ops generalizing w with
  | nil => exact ⟨[], by simp [run]⟩
  | cons op ops ih =>
    obtain ⟨n1, h1⟩ := step_trace_extends E w op
    obtain ⟨n2, h2⟩ := ih (step E w op)
    refine ⟨n1 ++ n2, ?_⟩
    have : run E w (op :: ops) = run E (step E w op) ops := rfl
    rw [this, h2, h1, List.append_assoc]

/-- One call keeps the handle discipline, as long as the handles the engine
constructs stay fresh. -/
theorem step_handleInv (E : Engine σ) (w : World σ) (op : Op) (hinv : HandleInv w)
    (hfresh : FreshHandles (step E w op).trace) : HandleInv (step E w op) := by
  obtain ⟨hstored, hsub, hdup, huse⟩ := hinv
  cases op with
  | initializeWhisper model_path =>
    obtain ⟨hg, htr⟩ := initializeWhisper_world E w model_path
    simp only [step] at hfresh ⊢
    have hfreed : freed (initializeWhisper E w model_path).2.trace = freed w.trace := by
      rw [htr, freed_append]
      simp [freed, Event.freedPtr]
    by_cases h0 : (E.whisper_init_from_file_with_params w.engine model_path (cparams E)).1 = 0
    · have hcons : constructed (initializeWhisper E w model_path).2.trace
          = constructed w.trace := by
        rw [htr, constructed_append]
        simp [constructed, Event.constructedPtr, h0]
      refine ⟨Or.inl (hg.trans h0), ?_, ?_, ?_⟩
      · rw [hfreed, hcons]; exact hsub
      · unfold NoDoubleFree; rw [hfreed]; exact hdup
      · rw [htr]
        apply huse.append_of_no_use
        intro e he
        simp only [List.mem_cons, List.mem_singleton, List.not_mem_nil, or_false] at he
        rcases he with he | he | he
        all_goals
          subst he
          rfl
    · have hcons : constructed (initializeWhisper E w model_path).2.trace
          = constructed w.trace ++
            [(E.whisper_init_from_file_with_params w.engine model_path (cparams E)).1] := by
        rw [htr, constructed_append]
        simp [constructed, Event.constructedPtr, h0]
      have hnew : (E.whisper_init_from_file_with_params w.engine model_path (cparams E)).1
          ∉ constructed w.trace := by
        unfold FreshHandles at hfresh
        rw [hcons] at hfresh
        intro hmem
        have := (List.nodup_append.mp hfresh).2.2
        exact this hmem (List.mem_singleton_self _)
      refine ⟨Or.inr ⟨?_, ?_⟩, ?_, ?_, ?_⟩
      · rw [hg, hcons]; simp
      · rw [hg, hfreed]
        exact fun hmem => hnew (hsub _ hmem)
      · rw [hfreed, hcons]
        intro h hh
        exact List.mem_append_left _ (hsub h hh)
      · unfold NoDoubleFree; rw [hfreed]; exact hdup
      · rw [htr]
        apply huse.append_of_no_use
        intro e he
        simp only [List.mem_cons, List.mem_singleton, List.not_mem_nil, or_false] at he
        rcases he with he | he | he
        all_goals
          subst he
          rfl
  | transcribeAudio audio_data sample_rate =>
    obtain ⟨new, htr, hnew⟩ := transcribeAudio_events E w audio_data sample_rate
    have hg := transcribeAudio_keeps_handle E w audio_data sample_rate
    simp only [step]
    have hfreed : freed (transcribeAudio E w audio_data sample_rate).2.trace
        = freed w.trace := by
      rw [htr, freed_append, freed_eq_nil new (fun e he => (hnew e he).1), List.append_nil]
    have hcons : constructed (transcribeAudio E w audio_data sample_rate).2.trace
        = constructed w.trace := by
      rw [htr, constructed_append, constructed_eq_nil new (fun e he => (hnew e he).2.1),
        List.append_nil]
    refine ⟨?_, ?_, ?_, ?_⟩
    · rw [hg, hfreed, hcons]; exact hstored
    · rw [hfreed, hcons]; exact hsub
    · unfold NoDoubleFree; rw [hfreed]; exact hdup
    · rw [htr]
      apply huse.append_of_live (fun e he => (hnew e he).1)
      intro e he h hused
      obtain ⟨hh, hne⟩ := (hnew e he).2.2 h hused
      rcases hstored with hnull | ⟨_, hlive⟩
      · exact absurd (hh.trans hnull) hne
      · rw [hh]; exact hlive
  | cleanup =>
    by_cases h0 : w.g_whisper_context = 0
    · have : step E w Op.cleanup = w := by simp [step, cleanup, h0]
      rw [this]
      exact ⟨hstored, hsub, hdup, huse⟩
    · have htr : (step E w Op.cleanup).trace
          = w.trace ++ [Event.whisper_free w.g_whisper_context] := by
        simp [step, cleanup, h0]
      have hg : (step E w Op.cleanup).g_whisper_context = 0 := by
        simp [step, cleanup, h0]
      have hfreed : freed (step E w Op.cleanup).trace
          = freed w.trace ++ [w.g_whisper_context] := by
        rw [htr, freed_append]; rfl
      have hcons : constructed (step E w Op.cleanup).trace = constructed w.trace := by
        rw [htr, constructed_append]; simp [constructed, Event.constructedPtr]
      rcases hstored with hnull | ⟨hmem, hlive⟩
      · exact absurd hnull h0
      · refine ⟨Or.inl hg, ?_, ?_, ?_⟩
        · rw [hfreed, hcons]
          intro h hh
          rcases List.mem_append.mp hh with hh | hh
          · exact hsub h hh
          · rw [List.mem_singleton.mp hh]; exact hmem
        · unfold NoDoubleFree
          rw [hfreed]
          apply List.nodup_append.mpr
          refine ⟨hdup, List.nodup_singleton _, ?_⟩
          intro x hx hx2
          rw [List.mem_singleton.mp hx2] at hx
          exact hlive hx
        · rw [htr]
          apply huse.append_of_no_use
          intro e he
          rw [List.mem_singleton.mp he]
          rfl
  | isInitialized => exact ⟨hstored, hsub, hdup, huse⟩

/-- A run keeps the handle discipline, as long as the handles the engine
constructs stay fresh. -/
theorem run_handleInv (E : Engine σ) (ops : List Op) (w : World σ) (hinv : HandleInv w)
    (hfresh : FreshHandles (run E w ops).trace) : HandleInv (run E w ops) := by
  induction ops generalizing w with
  | nil => exact hinv
  | cons op ops ih =>
    have hrun : run E w (op :: ops) = run E (step E w op) ops := rfl
    rw [hrun] at hfresh ⊢
    obtain ⟨new, hnew⟩ := run_trace_extends E ops (step E w op)
    apply ih (step E w op) _ hfresh
    apply step_handleInv E w op hinv
    rw [hnew] at hfresh
    exact hfresh.of_append

/-- The bridge as loaded satisfies the handle discipline. -/
theorem initial_handleInv (s : σ) : HandleInv (World.initial s) := by
  refine ⟨Or.inl rfl, ?_, ?_, ?_⟩
  · intro h hh
    simp [World.initial, freed] at hh
  · simp [NoDoubleFree, World.initial, freed]
  · intro before after e h heq
    simp [World.initial] at heq

/-- C10: for every finite sequence of bridge operations run from the bridge as
loaded, with the engine returning a handle never returned before on each
successful construction, no handle is passed to `whisper_free` more than
once, no handle is passed to `whisper_full`, `whisper_full_n_segments` or
`whisper_full_get_segment_text` after it was passed to `whisper_free`, and the
stored handle is null or a handle the engine returned and that was not freed
yet. -/
theorem bridge_handle_safety (E : Engine σ) (s : σ) (ops : List Op)
    (hfresh : FreshHandles (run E (World.initial s) ops).trace) :
    NoDoubleFree (run E (World.initial s) ops).trace ∧
    NoUseAfterFree (run E (World.initial s) ops).trace ∧
    ((run E (World.initial s) ops).g_whisper_context = nullptr ∨
      ((run E (World.initial s) ops).g_whisper_context
          ∈ constructed (run E (World.initial s) ops).trace ∧
        (run E (World.initial s) ops).g_whisper_context
          ∉ freed (run E (World.initial s) ops).trace)) := by
  obtain ⟨hstored, _, hdup, huse⟩ :=
    run_handleInv E ops (World.initial s) (initial_handleInv s) hfresh
  exact ⟨hdup, huse, hstored⟩

/-- C10 over `demoEngine`, on a run that loads, transcribes, reloads, cleans up
twice, transcribes, fails to load and loads again. -/
theorem bridge_handle_safety_witness :
    NoDoubleFree (run demoEngine demoWorld
      [Op.initializeWhisper "model.bin", Op.transcribeAudio [1, 2] 16000,
       Op.initializeWhisper "model.bin", Op.isInitialized, Op.cleanup, Op.cleanup,
       Op.transcribeAudio [1] 16000, Op.initializeWhisper "missing.bin",
       Op.initializeWhisper "model.bin", Op.transcribeAudio [] 16000, Op.cleanup]).trace ∧
    NoUseAfterFree (run demoEngine demoWorld
      [Op.initializeWhisper "model.bin", Op.transcribeAudio [1, 2] 16000,
       Op.initializeWhisper "model.bin", Op.isInitialized, Op.cleanup, Op.cleanup,
       Op.transcribeAudio [1] 16000, Op.initializeWhisper "missing.bin",
       Op.initializeWhisper "model.bin", Op.transcribeAudio [] 16000, Op.cleanup]).trace :=
  ⟨(bridge_handle_safety demoEngine { next := 1, segments := [] }
      [Op.initializeWhisper "model.bin", Op.transcribeAudio [1, 2] 16000,
       Op.initializeWhisper "model.bin", Op.isInitialized, Op.cleanup, Op.cleanup,
       Op.transcribeAudio [1] 16000, Op.initializeWhisper "missing.bin",
       Op.initializeWhisper "model.bin", Op.transcribeAudio [] 16000, Op.cleanup]
      (by decide)).1,
   (bridge_handle_safety demoEngine { next := 1, segments := [] }
      [Op.initializeWhisper "model.bin", Op.transcribeAudio [1, 2] 16000,
       Op.initializeWhisper "model.bin", Op.isInitialized, Op.cleanup, Op.cleanup,
       Op.transcribeAudio [1] 16000, Op.initializeWhisper "missing.bin",
       Op.initializeWhisper "model.bin", Op.transcribeAudio [] 16000, Op.cleanup]
      (by decide)).2.1⟩


/-! ## Re-initialisation -/

end Medicaid
